import Mathlib

/-!
# Verification of the MCPGuardian discovery / fingerprint pipeline

Shallow embedding of the discovery → normalize → merge → score →
fingerprint/delta core of the repository.  Python dictionaries are
modelled as insertion-ordered association lists, JSON values as the
inductive `JValue`, stateful persistence as explicit state passing.
SHA-256 hex digests are modelled as an injective function of the hashed
byte string: the digest of a canonical serialization is represented by
the canonical form itself, which preserves exactly the equalities and
inequalities of real digests under the standard assumption that SHA-256
is collision-free on the inputs that occur.
-/

set_option maxHeartbeats 1000000

namespace MCPGuardian

/-- JSON-style values, as produced by the Python `json` module and the
source-adapter payloads (numbers restricted to the integers that occur
in the manifests and signals the pipeline handles). -/
inductive JValue where
  | null : JValue
  | bool : Bool → JValue
  | num : Int → JValue
  | str : String → JValue
  | arr : List JValue → JValue
  | obj : List (String × JValue) → JValue

/-! Structural equality test on JSON values (the nested inductive rules
out a derived instance, so the decision procedure is spelled out). -/

mutual

def beqJ : JValue → JValue → Bool
  | .null, .null => true
  | .bool a, .bool b => a == b
  | .num a, .num b => a == b
  | .str a, .str b => a == b
  | .arr xs, .arr ys => beqJList xs ys
  | .obj xs, .obj ys => beqJObj xs ys
  | _, _ => false

def beqJList : List JValue → List JValue → Bool
  | [], [] => true
  | x :: xs, y :: ys => beqJ x y && beqJList xs ys
  | _, _ => false

def beqJObj : List (String × JValue) → List (String × JValue) → Bool
  | [], [] => true
  | (k, v) :: xs, (k2, v2) :: ys => k == k2 && beqJ v v2 && beqJObj xs ys
  | _, _ => false

end

mutual

theorem beqJ_refl : ∀ a, beqJ a a = true
  | .null => rfl
  | .bool b => by simp [beqJ]
  | .num n => by simp [beqJ]
  | .str s => by simp [beqJ]
  | .arr xs => by simpa [beqJ] using beqJList_refl xs
  | .obj xs => by simpa [beqJ] using beqJObj_refl xs

theorem beqJList_refl : ∀ xs, beqJList xs xs = true
  | [] => rfl
  | x :: xs => by simp [beqJList, beqJ_refl x, beqJList_refl xs]

theorem beqJObj_refl : ∀ xs, beqJObj xs xs = true
  | [] => rfl
  | (k, v) :: xs => by simp [beqJObj, beqJ_refl v, beqJObj_refl xs]

end

mutual

theorem beqJ_sound : ∀ a b, beqJ a b = true → a = b
  | .null, .null, _ => rfl
  | .bool a, .bool b, h => by simp [beqJ] at h; simp [h]
  | .num a, .num b, h => by simp [beqJ] at h; simp [h]
  | .str a, .str b, h => by simp [beqJ] at h; simp [h]
  | .arr xs, .arr ys, h => by
      have hx := beqJList_sound xs ys (by simpa [beqJ] using h)
      simp [hx]
  | .obj xs, .obj ys, h => by
      have hx := beqJObj_sound xs ys (by simpa [beqJ] using h)
      simp [hx]
  | .null, .bool _, h => by simp [beqJ] at h
  | .null, .num _, h => by simp [beqJ] at h
  | .null, .str _, h => by simp [beqJ] at h
  | .null, .arr _, h => by simp [beqJ] at h
  | .null, .obj _, h => by simp [beqJ] at h
  | .bool _, .null, h => by simp [beqJ] at h
  | .bool _, .num _, h => by simp [beqJ] at h
  | .bool _, .str _, h => by simp [beqJ] at h
  | .bool _, .arr _, h => by simp [beqJ] at h
  | .bool _, .obj _, h => by simp [beqJ] at h
  | .num _, .null, h => by simp [beqJ] at h
  | .num _, .bool _, h => by simp [beqJ] at h
  | .num _, .str _, h => by simp [beqJ] at h
  | .num _, .arr _, h => by simp [beqJ] at h
  | .num _, .obj _, h => by simp [beqJ] at h
  | .str _, .null, h => by simp [beqJ] at h
  | .str _, .bool _, h => by simp [beqJ] at h
  | .str _, .num _, h => by simp [beqJ] at h
  | .str _, .arr _, h => by simp [beqJ] at h
  | .str _, .obj _, h => by simp [beqJ] at h
  | .arr _, .null, h => by simp [beqJ] at h
  | .arr _, .bool _, h => by simp [beqJ] at h
  | .arr _, .num _, h => by simp [beqJ] at h
  | .arr _, .str _, h => by simp [beqJ] at h
  | .arr _, .obj _, h => by simp [beqJ] at h
  | .obj _, .null, h => by simp [beqJ] at h
  | .obj _, .bool _, h => by simp [beqJ] at h
  | .obj _, .num _, h => by simp [beqJ] at h
  | .obj _, .str _, h => by simp [beqJ] at h
  | .obj _, .arr _, h => by simp [beqJ] at h

theorem beqJList_sound : ∀ xs ys, beqJList xs ys = true → xs = ys
  | [], [], _ => rfl
  | [], _ :: _, h => by simp [beqJList] at h
  | _ :: _, [], h => by simp [beqJList] at h
  | x :: xs, y :: ys, h => by
      simp only [beqJList, Bool.and_eq_true] at h
      have h1 := beqJ_sound x y h.1
      have h2 := beqJList_sound xs ys h.2
      simp [h1, h2]

theorem beqJObj_sound : ∀ xs ys, beqJObj xs ys = true → xs = ys
  | [], [], _ => rfl
  | [], _ :: _, h => by simp [beqJObj] at h
  | _ :: _, [], h => by simp [beqJObj] at h
  | (k, v) :: xs, (k2, v2) :: ys, h => by
      simp only [beqJObj, Bool.and_eq_true] at h
      have h0 : k = k2 := by simpa using h.1.1
      have h1 := beqJ_sound v v2 h.1.2
      have h2 := beqJObj_sound xs ys h.2
      simp [h0, h1, h2]

end

instance : DecidableEq JValue := fun a b =>
  if h : beqJ a b = true then .isTrue (beqJ_sound a b h)
  else .isFalse (fun he => h (he ▸ beqJ_refl a))

/-- A Python `dict` with string keys, modelled as an insertion-ordered
association list (lookups take the first binding; real dicts never hold
duplicate keys). -/
abbrev Dict := List (String × JValue)

/-- `d.get(k)` on a Python dict holding JSON data: a missing key and a
key bound to JSON `null` both come back as Python `None`. -/
def pyGet (d : Dict) (k : String) : JValue :=
  (d.lookup k).getD JValue.null

/-- `d[k] = v` on an insertion-ordered dict: an existing key keeps its
position and takes the new value, a fresh key is appended. -/
def dictInsert (d : Dict) (k : String) (v : JValue) : Dict :=
  if (d.lookup k).isSome then
    d.map (fun p => if p.1 = k then (k, v) else p)
  else
    d ++ [(k, v)]

/-- `d.update(e)`: later entries win on key collision. -/
def dictUpdate (d e : Dict) : Dict :=
  e.foldl (fun acc p => dictInsert acc p.1 p.2) d

/-! Structural models of the Python string primitives the pipeline uses
(`str.lower`, `str.strip`, `sorted`, substring search), spelled out over
character lists so that concrete inputs evaluate inside the kernel.  The
strings the pipeline handles are ASCII. -/

/-- `str.lower` on an ASCII character. -/
def lowerChar (c : Char) : Char :=
  if 'A' ≤ c ∧ c ≤ 'Z' then Char.ofNat (c.toNat + 32) else c

/-- `str.lower`. -/
def pyLower (s : String) : String := String.mk (s.data.map lowerChar)

/-- The whitespace `str.strip()` removes. -/
def isPySpace (c : Char) : Bool :=
  c = ' ' ∨ c = '\t' ∨ c = '\n' ∨ c = '\r' ∨ c = '\x0b' ∨ c = '\x0c'

/-- `str.strip()`. -/
def pyStrip (s : String) : String :=
  String.mk (((s.data.dropWhile isPySpace).reverse.dropWhile isPySpace).reverse)

/-- Python string `<=`: lexicographic by code point. -/
def charListLE : List Char → List Char → Bool
  | [], _ => true
  | _ :: _, [] => false
  | a :: as, b :: bs =>
    if a.toNat < b.toNat then true
    else if b.toNat < a.toNat then false
    else charListLE as bs

/-- Python string `<=`. -/
def strLE (a b : String) : Bool := charListLE a.data b.data

/-- Insertion step of `sorted` on strings. -/
def insertSorted (x : String) : List String → List String
  | [] => [x]
  | y :: ys => if strLE x y then x :: y :: ys else y :: insertSorted x ys

/-- `sorted` on a list of strings (ascending, stable). -/
def sortStr (l : List String) : List String := l.foldr insertSorted []

/-- Truthiness of an optional Python string (`None` and `""` are falsy). -/
def truthyS : Option String → Bool
  | none => false
  | some s => s ≠ ""

/-- Python `a or b` on optional strings. -/
def strOr (a b : Option String) : Option String :=
  if truthyS a then a else b

/-- Truthiness of an optional Python dict (`None` and `{}` are falsy). -/
def truthyD : Option Dict → Bool
  | none => false
  | some d => d ≠ []

/-- Python truthiness of a JSON value. -/
def jTruthy : JValue → Bool
  | .null => false
  | .bool b => b
  | .num n => n ≠ 0
  | .str s => s ≠ ""
  | .arr xs => xs ≠ []
  | .obj kvs => kvs ≠ []

/-! ## Discovery data model (`src/harvest/models.py`) -/

/-- `SourceHit`: one ephemeral per-adapter result.  URLs are carried as
plain strings (pydantic's `HttpUrl` validation is outside the embedded
core; the merge key lowercases on its own and never strips slashes). -/
structure SourceHit where
  source : String
  url : String
  title : Option String := none
  snippet : Option String := none
  extra : Dict := []
  deriving DecidableEq

/-- `ServerCandidate` (the fields the discovery pipeline reads and
writes; `categories` and `query_features` are defaulted-empty pydantic
fields that normalize/merge/score never touch and are omitted).  The
float `score` is carried as a rational. -/
structure ServerCandidate where
  id : String
  name : String
  description : String := ""
  repo_url : Option String := none
  homepage : Option String := none
  manifest_url : Option String := none
  sdk : String := "unknown"
  transports : List String := []
  auth : List String := []
  tools : List String := []
  registries : List String := []
  signals : Dict := []
  risk_flags : List String := []
  score : ℚ := 0
  reasons : List String := []
  provenance : List SourceHit := []
  deriving DecidableEq

/-! ## Identity merge (`src/harvest/discovery/merge.py`) -/

/-- `key(c)`: the identity string `(repo_url or homepage or name or "")`
stripped and lowercased. -/
def key (c : ServerCandidate) : String :=
  pyLower (pyStrip ((strOr c.repo_url (strOr c.homepage (some c.name))).getD ""))

/-- `sorted(set(xs))` on lists of strings: distinct elements in
ascending order. -/
def dedupSort (l : List String) : List String :=
  sortStr l.eraseDups

/-- The in-place field merge performed when a candidate's key is already
present: fill-if-empty scalars, unioned-and-sorted set fields,
shallow-merged signals, concatenated provenance. -/
def mergeInto (base c : ServerCandidate) : ServerCandidate :=
  { base with
    description := if base.description = "" then c.description else base.description,
    sdk := if base.sdk ≠ "unknown" then base.sdk else c.sdk,
    transports := dedupSort (base.transports ++ c.transports),
    auth := dedupSort (base.auth ++ c.auth),
    tools := dedupSort (base.tools ++ c.tools),
    registries := dedupSort (base.registries ++ c.registries),
    signals := dictUpdate base.signals c.signals,
    provenance := base.provenance ++ c.provenance,
    risk_flags := dedupSort (base.risk_flags ++ c.risk_flags) }

/-- One iteration of the `merge_candidates` loop over the
insertion-ordered map `by_key`. -/
def mergeStep (m : List (String × ServerCandidate)) (c : ServerCandidate) :
    List (String × ServerCandidate) :=
  let k := key c
  if (m.lookup k).isSome then
    m.map (fun p => if p.1 = k then (p.1, mergeInto p.2 c) else p)
  else
    m ++ [(k, c)]

/-- `merge_candidates`: single pass via a map keyed by identity,
returning `list(by_key.values())` in first-seen order. -/
def merge_candidates (cands : List ServerCandidate) : List ServerCandidate :=
  (cands.foldl mergeStep []).map Prod.snd

/-! ## Normalizer (`src/harvest/discovery/normalize.py`) -/

/-- Substring occurrence over character lists. -/
def containsSub (hay pat : List Char) : Bool :=
  match hay with
  | [] => pat.isEmpty
  | _ :: t => pat.isPrefixOf hay || containsSub t pat

/-- Case-insensitive occurrence of a literal lexical pattern, modelling
`re.search`/`re.findall` for the alternation patterns of `normalize.py`
(the regex word-boundary details are abstracted to substring occurrence;
no claim settled in this file depends on these lexical fields). -/
def containsCI (text pat : String) : Bool :=
  containsSub (pyLower text).data (pyLower pat).data

/-- `stable_id` (`src/harvest/util.py`): the first 16 hex characters of
the SHA-256 of the stripped, lowercased identity string.  The truncated
digest is modelled as an injective function of the stripped lowercased
string, represented by that string itself. -/
def stable_id (primary : String) : String :=
  pyLower (pyStrip primary)

/-- A raw hit as consumed by `normalize_candidate`: a dict whose keys
are read with `.get`; an absent key and a JSON-null value both surface
as Python `None`. -/
structure RawHit where
  id : Option String := none
  title : Option String := none
  name : Option String := none
  repo_name : Option String := none
  homepage : Option String := none
  repo_url : Option String := none
  url : Option String := none
  manifest_url : Option String := none
  description : Option String := none
  readme : Option String := none
  snippet : Option String := none
  signals : Option Dict := none
  extra : Option Dict := none
  tools : List String := []
  registries : List String := []
  provenance : List SourceHit := []
  deriving DecidableEq

/-- `normalize_candidate(raw)`.  `daysSince` abstracts the ISO-8601
timestamp parse of `pushed_at` together with the UTC clock
(`int((now - dt).total_seconds() // 86400)`); a parse failure is `none`
and leaves the signal absent, mirroring the swallowed exception. -/
def normalize_candidate (daysSince : JValue → Option Int) (raw : RawHit) :
    ServerCandidate :=
  let name := (strOr raw.title (strOr raw.name raw.repo_name)).getD ""
  let homepage := raw.homepage
  let repo := strOr raw.repo_url raw.url
  let text := " ".intercalate
    [raw.description.getD "", raw.readme.getD "", raw.snippet.getD ""]
  let sdk :=
    if containsCI text "@modelcontextprotocol/sdk" then "typescript"
    else if containsCI text "from mcp.server.fastmcp import FastMCP"
            || containsCI text "@mcp.tool" then "python"
    else "unknown"
  -- `sorted(set(mapped))`: membership flags assembled in ascending order
  let transports :=
    (if containsCI text "/mcp" || containsCI text "streamable http" then ["http"] else [])
    ++ (if containsCI text "sse" then ["sse"] else [])
    ++ (if containsCI text "stdio" then ["stdio"] else [])
  let auth :=
    (if containsCI text "api key" then ["api key"] else [])
    ++ (if containsCI text "basic auth" then ["basic auth"] else [])
    ++ (if containsCI text "bearer" then ["bearer"] else [])
    ++ (if containsCI text "oauth" then ["oauth"] else [])
    ++ (if containsCI text "okta" then ["okta"] else [])
  let risk_flags :=
    if containsCI text "chmod" || containsCI text "curl" || containsCI text "bash"
        || containsCI text "powershell" || containsCI text "exec"
        || containsCI text "/etc/passwd" || containsCI text "rm -rf"
    then ["danger_terms"] else []
  let identity :=
    if truthyS repo then repo.getD ""
    else if truthyS homepage then homepage.getD ""
    else if name ≠ "" then name
    else "unknown"
  let sid := if truthyS raw.id then raw.id.getD "" else stable_id identity
  let signals0 :=
    if truthyD raw.signals then raw.signals.getD []
    else if truthyD raw.extra then raw.extra.getD []
    else []
  let signals :=
    if jTruthy (pyGet signals0 "pushed_at")
        && !jTruthy (pyGet signals0 "days_since_push") then
      match daysSince (pyGet signals0 "pushed_at") with
      | some d => dictInsert signals0 "days_since_push" (.num (max 0 d))
      | none => signals0
    else signals0
  { id := sid,
    name := if name.trim ≠ "" then name.trim
            else if truthyS repo then repo.getD "" else "unknown",
    description := raw.description.getD "",
    repo_url := repo,
    homepage := homepage,
    manifest_url := raw.manifest_url,
    sdk := sdk,
    transports := transports,
    auth := auth,
    tools := raw.tools,
    registries := raw.registries,
    signals := signals,
    risk_flags := risk_flags,
    provenance := raw.provenance,
    score := 0,
    reasons := [] }

/-! ## Fingerprint & delta tracker (`src/mcp_harvest/storage/manifest.py`) -/

/-- `CORE_KEYS_FOR_FINGERPRINT`: the 13 tracked manifest keys, in the
order they are listed in the source. -/
def CORE_KEYS_FOR_FINGERPRINT : List String :=
  ["display_name", "description", "runtime", "install", "source_repo",
   "homepage", "license", "maintainer", "auth_required", "env_vars",
   "tools", "transports", "tags"]

/-- A persisted manifest is a JSON object, i.e. a dict. -/
abbrev Manifest := Dict

/-- `stable_manifest_subset`: restrict a manifest to the tracked keys,
in `CORE_KEYS_FOR_FINGERPRINT` order; a missing key is recorded as
`None` (JSON `null`), exactly like `manifest.get(k)`. -/
def stable_manifest_subset (manifest : Manifest) : List (String × JValue) :=
  CORE_KEYS_FOR_FINGERPRINT.map (fun k => (k, pyGet manifest k))

/-- The canonical serialization key order: `json.dumps(..., sort_keys=True)`
emits the tracked keys sorted lexicographically. -/
def sortedCoreKeys : List String :=
  sortStr CORE_KEYS_FOR_FINGERPRINT

/-- `compute_sha256_for_manifest`: the SHA-256 hex digest of the canonical
(sorted-key, fixed-separator) JSON serialization of the stable subset.
The digest is modelled by the canonical sorted-key form itself: JSON
serialization of a fixed shape is injective and SHA-256 is assumed
collision-free, so two digests are equal exactly when the canonical
forms are. -/
def compute_sha256_for_manifest (manifest : Manifest) : List (String × JValue) :=
  sortedCoreKeys.map (fun k => (k, pyGet manifest k))

/-- `diff_keys(old, new)`: with no prior manifest, all tracked keys (in
declaration order, `list(stable_manifest_subset(new).keys())`); otherwise
the sorted tracked keys whose values differ between the two subsets. -/
def diff_keys (old : Option Manifest) (new : Manifest) : List String :=
  match old with
  | none => CORE_KEYS_FOR_FINGERPRINT
  | some o => sortedCoreKeys.filter (fun k => pyGet o k ≠ pyGet new k)

/-- The manifest store (`data/manifests/<server_id>.json`), modelled as a
map from server id to the persisted manifest. -/
structure StoreState where
  manifests : String → Option Manifest

/-- `read_manifest`. -/
def read_manifest (st : StoreState) (server_id : String) : Option Manifest :=
  st.manifests server_id

/-- `write_manifest`: atomically replace the persisted manifest for one
server id (temp-write + rename collapses to a pure state update). -/
def write_manifest (st : StoreState) (server_id : String) (manifest : Manifest) :
    StoreState :=
  ⟨fun s => if s = server_id then some manifest else st.manifests s⟩

/-- `Fingerprint` model (`computed_at` carried as an abstract tick). -/
structure Fingerprint where
  server_id : String
  registry : String
  sha256 : List (String × JValue)
  manifest : Manifest
  computed_at : Nat
  deriving DecidableEq

/-- `Delta` model. -/
structure Delta where
  timestamp : Nat
  server_id : String
  registry : String
  old_sha : Option (List (String × JValue))
  new_sha : List (String × JValue)
  changed_keys : List String
  deriving DecidableEq

/-- `update_fingerprint_and_delta`, with the manifest store threaded
explicitly and `datetime.now` passed as the tick `now`.  Returns the
fingerprint, the optional delta and the post-state. -/
def update_fingerprint_and_delta (st : StoreState) (now : Nat)
    (server_id registry : String) (manifest : Manifest) :
    Fingerprint × Option Delta × StoreState :=
  let previous := read_manifest st server_id
  let new_sha := compute_sha256_for_manifest manifest
  let fp : Fingerprint :=
    { server_id := server_id, registry := registry, sha256 := new_sha,
      manifest := manifest, computed_at := now }
  match previous with
  | none => (fp, none, write_manifest st server_id manifest)
  | some prev =>
      let old_sha := compute_sha256_for_manifest prev
      if old_sha ≠ new_sha then
        let d : Delta :=
          { timestamp := now, server_id := server_id, registry := registry,
            old_sha := some old_sha, new_sha := new_sha,
            changed_keys := diff_keys (some prev) manifest }
        (fp, some d, write_manifest st server_id manifest)
      else
        (fp, none, st)

/-! ## Scorer (`src/harvest/discovery/score.py`)

The two ML-based similarity terms (`_sem_score` over sentence-embedding
dot products and `_lex_score` over tf-idf vectors) depend only on the
query terms and on the candidate's name/description text; they are
passed in as the real parameters `sem` and `lex`.  Floating-point
arithmetic is modelled over `ℝ`. -/

/-- `float(signals.get(k, dflt) or dflt)` for the numeric signals the
scorer reads (`stars`, `days_since_push`): the signals hold JSON numbers
or null, and any falsy value falls back to the default. -/
def signalNum (signals : Dict) (k : String) (dflt : Int) : ℝ :=
  match pyGet signals k with
  | .num n => if n = 0 then (dflt : ℝ) else (n : ℝ)
  | _ => (dflt : ℝ)

/-- Python `round(x, 2)` over the reals (the tie-breaking difference
between banker's rounding and round-half-up is immaterial to every fact
stated about the score). -/
noncomputable def round2 (x : ℝ) : ℝ :=
  ((round (100 * x) : ℤ) : ℝ) / 100

/-- The composite score `score_candidates` assigns to one candidate
(the final stable-descending sort does not change any candidate's
score).  `math.log1p t` is `Real.log (1 + t)`. -/
noncomputable def candidate_score (sem lex : ℝ) (c : ServerCandidate) : ℝ :=
  let stars := signalNum c.signals "stars" 0
  let days := signalNum c.signals "days_since_push" 9999
  let recency := 1 / (1 + Real.log (1 + max 0 days))
  let presence := min 1 ((c.registries.length : ℝ) / 3)
  let sdk_bonus : ℝ := if c.sdk = "typescript" ∨ c.sdk = "python" then 1 else 0
  let hygiene : ℝ := if c.auth.length ≤ 10 then 1 else 0.7
  let risk_penalty : ℝ := if c.risk_flags ≠ [] then 8 else 0
  let trans_bonus : ℝ :=
    if c.transports ≠ [] then
      (if "stdio" ∈ c.transports then 1.5 else 0)
      + (if "sse" ∈ c.transports then 1 else 0)
    else 0
  let lic := pyGet c.signals "license"
  let license_bonus : ℝ :=
    if lic ≠ JValue.null ∧ lic ≠ JValue.str "NOASSERTION" then 1 else 0
  let archived_penalty : ℝ :=
    if jTruthy (pyGet c.signals "archived") then 12 else 0
  round2 (40 * sem + 22 * lex + 14 * recency + 10 * presence
    + 6 * sdk_bonus + 4 * hygiene + min 4 (Real.log (1 + stars))
    + trans_bonus + license_bonus - risk_penalty - archived_penalty)

/-- `c.signals[k] = v`: overwrite one signal, leaving everything else
about the candidate fixed. -/
def setSignal (c : ServerCandidate) (k : String) (v : JValue) : ServerCandidate :=
  { c with signals := dictInsert c.signals k v }

/-! ## Source adapters (`src/harvest/discovery/adapters/`) and fan-out
(`src/harvest/discovery/run.py`)

Fallible network requests are modelled in `Except`: a raised exception
is an `error` result.  `req i` is the outcome of the `i`-th attempt of a
request, so retried requests that "ultimately fail" are those failing at
every attempt. -/

/-- The exceptions visible at the adapter boundary. -/
inductive FetchError where
  | httpStatusError (code : Nat)
  | timeoutError
  | retryError
  deriving DecidableEq

/-- `@retry(stop=stop_after_attempt(3), wait=wait_exponential_jitter(...))`:
up to three attempts; when all fail, tenacity raises `RetryError`
(no adapter sets `reraise=True`, so the original exception is never
re-raised). The backoff delays do not affect the returned value. -/
def tenacity_retry3 {α : Type} (req : Nat → Except FetchError α) :
    Except FetchError α :=
  match req 0 with
  | .ok a => .ok a
  | .error _ =>
    match req 1 with
    | .ok a => .ok a
    | .error _ =>
      match req 2 with
      | .ok a => .ok a
      | .error _ => .error .retryError

/-- One item of a GitHub repository-search response. -/
structure GithubItem where
  html_url : String
  full_name : Option String := none
  description : Option String := none
  stargazers_count : Option Int := none
  pushed_at : Option String := none
  archived : Bool := false
  license_spdx : Option String := none
  deriving DecidableEq

/-- The `SourceHit` the GitHub adapter builds from one response item. -/
def githubItemToHit (it : GithubItem) : SourceHit :=
  { source := "github",
    url := it.html_url,
    title := it.full_name,
    snippet := some (it.description.getD ""),
    extra :=
      [("stars", (it.stargazers_count.map JValue.num).getD JValue.null),
       ("pushed_at", (it.pushed_at.map JValue.str).getD JValue.null),
       ("archived", JValue.bool it.archived),
       ("license", (it.license_spdx.map JValue.str).getD JValue.null)] }

/-- `github.search(terms, limit)`: two retried page requests with no
surrounding `try`/`except` — a persistent failure of either page
propagates to the caller.  `pageData p i` is attempt `i` of the request
for page `p`. -/
def github_search (pageData : Nat → Nat → Except FetchError (List GithubItem))
    (limit : Nat) : Except FetchError (List SourceHit) := do
  let d1 ← tenacity_retry3 (pageData 1)
  let items := d1.map githubItemToHit
  if limit ≤ items.length then
    pure (items.take limit)
  else do
    let d2 ← tenacity_retry3 (pageData 2)
    pure ((items ++ d2.map githubItemToHit).take limit)

/-- A fetched page, as the registries adapter sees it. -/
structure HttpResponse where
  status_code : Nat
  text : String
  deriving DecidableEq

/-- `registries.search`: the three catalog pages are fetched with
`asyncio.gather(..., return_exceptions=True)`; a failed or non-200 page
is skipped and the loop continues, so this adapter cannot raise.
`extract` abstracts the regex that pulls term-matching GitHub URLs out
of the page markup. -/
def registries_search (extract : String → List SourceHit)
    (fetchPage : String → Except FetchError HttpResponse)
    (limit : Nat) : List SourceHit :=
  let urls :=
    ["https://mcpservers.org/",
     "https://raw.githubusercontent.com/modelcontextprotocol/servers/refs/heads/main/README.md",
     "https://mcp.so/"]
  let hits := urls.foldl (fun acc u =>
    match fetchPage u with
    | .error _ => acc
    | .ok r => if r.status_code ≠ 200 then acc else acc ++ extract r.text) []
  hits.take limit

/-- `npm.search`: the primary request is guarded only by
`except httpx.HTTPStatusError` (with an `except Exception` fallback
around the *second* request); since the retry decorator surfaces a
persistent failure as `RetryError`, that handler never matches and the
failure propagates.  `getData q i` is attempt `i` of the search request
(`q = true`: the query with the extra keywords, `q = false`: the plain
fallback query); `process` abstracts the repo-sanitizing payload walk. -/
def npm_search {α : Type} (process : α → List SourceHit)
    (getData : Bool → Nat → Except FetchError α) :
    Except FetchError (List SourceHit) :=
  match tenacity_retry3 (getData true) with
  | .ok data => .ok (process data)
  | .error (.httpStatusError _) =>
      match tenacity_retry3 (getData false) with
      | .ok data => .ok (process data)
      | .error _ => .ok []
  | .error e => .error e

/-- `pypi.search`: the search-page request is unguarded and propagates a
persistent failure; each per-project metadata lookup is wrapped in
`try ... except Exception: continue` and is skipped on failure.
`parseNames` abstracts the HTML project-name scrape, `hitOfProject` the
GitHub-URL selection from project metadata (`none` = item dropped). -/
def pypi_search {α : Type} (parseNames : String → List String)
    (getText : Nat → Except FetchError String)
    (getProjectJson : String → Nat → Except FetchError α)
    (hitOfProject : String → α → Option SourceHit)
    (limit : Nat) : Except FetchError (List SourceHit) := do
  let html ← tenacity_retry3 getText
  let names := ((parseNames html).eraseDups).take (min limit 40)
  let hits := names.foldl (fun acc name =>
    match tenacity_retry3 (getProjectJson name) with
    | .error _ => acc
    | .ok meta =>
      match hitOfProject name meta with
      | none => acc
      | some h => acc ++ [h]) []
  pure (hits.take limit)

/-- `dockerhub.search`: one retried request, unguarded — a persistent
failure propagates.  `process` abstracts the summary walk that keeps
GitHub-linked images. -/
def dockerhub_search {α : Type} (process : α → List SourceHit)
    (getData : Nat → Except FetchError α) (limit : Nat) :
    Except FetchError (List SourceHit) := do
  let data ← tenacity_retry3 getData
  pure ((process data).take limit)

/-- The hit-gathering fan-out of `discover` (`run.py`): the five adapter
calls are awaited one after another with no exception handling, so the
first adapter failure aborts the whole discovery call.  The registries
adapter cannot fail and contributes a plain list. -/
def discover_hits (ghHits : Except FetchError (List SourceHit))
    (regHits : List SourceHit)
    (npmHits pypiHits dockerHits : Except FetchError (List SourceHit)) :
    Except FetchError (List SourceHit) := do
  let g ← ghHits
  let n ← npmHits
  let p ← pypiHits
  let d ← dockerHits
  pure (g ++ regHits ++ n ++ p ++ d)

/-! ## Shared lemmas about association-list lookups and maps -/

theorem lookup_eq_none_iff_not_key {β : Type} (l : List (String × β)) (k : String) :
    l.lookup k = none ↔ k ∉ l.map Prod.fst := by
  induction l with
  | nil => simp
  | cons p t ih =>
    obtain ⟨a, b⟩ := p
    by_cases h : k = a
    · subst h
      simp [List.lookup]
    · have hba : (k == a) = false := beq_eq_false_iff_ne.mpr h
      simp [List.lookup, hba, h, ih]

theorem mem_of_lookup_eq_some {β : Type} {l : List (String × β)} {k : String} {v : β}
    (h : l.lookup k = some v) : (k, v) ∈ l := by
  induction l with
  | nil => simp [List.lookup] at h
  | cons p t ih =>
    obtain ⟨a, b⟩ := p
    by_cases hk : k = a
    · subst hk
      simp [List.lookup] at h
      simp [h]
    · have hba : (k == a) = false := beq_eq_false_iff_ne.mpr hk
      simp [List.lookup, hba] at h
      exact List.mem_cons_of_mem _ (ih h)

theorem lookup_eq_some_of_mem {β : Type} {l : List (String × β)}
    (nd : (l.map Prod.fst).Nodup)
    {k : String} {v : β} (hm : (k, v) ∈ l) : l.lookup k = some v := by
  induction l with
  | nil => simp at hm
  | cons p t ih =>
    obtain ⟨a, b⟩ := p
    simp only [List.map_cons, List.nodup_cons] at nd
    rcases List.mem_cons.mp hm with h | h
    · obtain ⟨hk, hv⟩ := Prod.mk.injEq .. ▸ h
      simp [List.lookup, hk, hv, beq_iff_eq]
    · have hk : k ≠ a := by
        rintro rfl
        exact nd.1 (List.mem_map_of_mem Prod.fst h)
      have hba : (k == a) = false := beq_eq_false_iff_ne.mpr hk
      simp [List.lookup, hba, ih nd.2 h]

theorem lookup_eq_of_perm {β : Type} {l1 l2 : List (String × β)}
    (nd : (l1.map Prod.fst).Nodup)
    (hp : l1.Perm l2) (k : String) : l1.lookup k = l2.lookup k := by
  cases h : l1.lookup k with
  | none =>
    symm
    rw [lookup_eq_none_iff_not_key] at h ⊢
    exact fun hk => h (((hp.map Prod.fst).mem_iff).mpr hk)
  | some v =>
    exact (lookup_eq_some_of_mem ((hp.map Prod.fst).nodup_iff.mp nd)
      (hp.mem_iff.mp (mem_of_lookup_eq_some h))).symm

theorem map_eq_of_eq_on {α β : Type} {l : List α} {f g : α → β}
    (h : ∀ a ∈ l, f a = g a) : l.map f = l.map g := by
  induction l with
  | nil => rfl
  | cons x t ih =>
    simp only [List.map_cons]
    rw [h x (List.mem_cons_self x t), ih (fun a ha => h a (List.mem_cons_of_mem x ha))]

theorem eq_on_of_map_eq {α β : Type} {l : List α} {f g : α → β}
    (h : l.map f = l.map g) : ∀ a ∈ l, f a = g a := by
  induction l with
  | nil => simp
  | cons x t ih =>
    simp only [List.map_cons, List.cons.injEq] at h
    intro a ha
    rcases List.mem_cons.mp ha with rfl | hm
    · exact h.1
    · exact ih h.2 a hm

/-! ## Claims about the fingerprint & delta tracker -/

/-- C7: `compute_sha256_for_manifest` is invariant to the key insertion
order of its input: two manifest dicts holding identical key/value pairs,
possibly inserted in different orders, produce equal digests. -/
theorem compute_sha256_insertion_order_invariant (m1 m2 : Manifest)
    (nd : (m1.map Prod.fst).Nodup) (hp : m1.Perm m2) :
    compute_sha256_for_manifest m1 = compute_sha256_for_manifest m2 := by
  unfold compute_sha256_for_manifest
  exact map_eq_of_eq_on (fun k _ => by
    simp [pyGet, lookup_eq_of_perm nd hp k])

/-- Witness for C7 at a concrete pair of reordered manifests. -/
theorem compute_sha256_insertion_order_invariant_witness :
    (([("license", JValue.str "MIT"), ("display_name", JValue.str "X")] : Manifest).Perm
      ([("display_name", JValue.str "X"), ("license", JValue.str "MIT")] : Manifest)) ∧
    compute_sha256_for_manifest
        [("license", JValue.str "MIT"), ("display_name", JValue.str "X")] =
      compute_sha256_for_manifest
        [("display_name", JValue.str "X"), ("license", JValue.str "MIT")] :=
  ⟨List.Perm.swap _ _ _,
   compute_sha256_insertion_order_invariant _ _ (by decide) (List.Perm.swap _ _ _)⟩

/-- C10: the fingerprint hash depends only on the values of the 13
tracked keys (a missing tracked key behaving as the key bound to null),
so a manifest differing from the persisted one only in untracked fields
hashes identically and never produces a Delta. -/
theorem fingerprint_depends_only_on_tracked_keys (m1 m2 : Manifest)
    (h : ∀ k ∈ CORE_KEYS_FOR_FINGERPRINT, pyGet m1 k = pyGet m2 k) :
    compute_sha256_for_manifest m1 = compute_sha256_for_manifest m2 ∧
    ∀ (st : StoreState) (now : Nat) (sid reg : String),
      read_manifest st sid = some m1 →
      (update_fingerprint_and_delta st now sid reg m2).2.1 = none := by
  have hsub : ∀ k ∈ sortedCoreKeys, k ∈ CORE_KEYS_FOR_FINGERPRINT := by decide
  have heq : compute_sha256_for_manifest m1 = compute_sha256_for_manifest m2 := by
    unfold compute_sha256_for_manifest
    exact map_eq_of_eq_on (fun k hk => by rw [h k (hsub k hk)])
  refine ⟨heq, fun st now sid reg hread => ?_⟩
  simp [update_fingerprint_and_delta, hread, heq]

/-- Witness for C10: adding an untracked field leaves the delta empty. -/
theorem fingerprint_depends_only_on_tracked_keys_witness :
    (update_fingerprint_and_delta
      ⟨fun s => if s = "srv" then some [("display_name", JValue.str "X")] else none⟩
      3 "srv" "mcp-get"
      [("display_name", JValue.str "X"), ("last_seen_iso", JValue.str "2025-01-01")]).2.1
      = none :=
  (fingerprint_depends_only_on_tracked_keys
    [("display_name", JValue.str "X")]
    [("display_name", JValue.str "X"), ("last_seen_iso", JValue.str "2025-01-01")]
    (by decide)).2 _ 3 "srv" "mcp-get" rfl

/-- C3 counterexample: on a first sighting (no prior manifest) the code
returns *no* Delta at all, refuting the claim that a Delta listing all
tracked keys is created. -/
theorem first_sighting_delta_counterexample :
    ¬ ∃ d : Delta,
      (update_fingerprint_and_delta ⟨fun _ => none⟩ 0 "srv" "mcp-get"
        [("display_name", JValue.str "X")]).2.1 = some d := by
  rintro ⟨d, hd⟩
  rw [show (update_fingerprint_and_delta ⟨fun _ => none⟩ 0 "srv" "mcp-get"
        [("display_name", JValue.str "X")]).2.1 = none from rfl] at hd
  exact Option.noConfusion hd

/-- C3 (amended): when no prior manifest exists for the server id, the
new manifest is persisted and no Delta is returned; `diff_keys` with no
prior manifest does list all tracked fingerprint keys, but
`update_fingerprint_and_delta` never calls it on that path. -/
theorem first_sighting_persists_without_delta (st : StoreState) (now : Nat)
    (sid reg : String) (m : Manifest) (h : read_manifest st sid = none) :
    (update_fingerprint_and_delta st now sid reg m).2.1 = none ∧
    (update_fingerprint_and_delta st now sid reg m).2.2.manifests sid = some m ∧
    diff_keys none m = CORE_KEYS_FOR_FINGERPRINT := by
  refine ⟨?_, ?_, rfl⟩ <;> simp [update_fingerprint_and_delta, h, write_manifest]

/-- Witness for the amended C3 at a concrete empty store. -/
theorem first_sighting_persists_without_delta_witness :
    (update_fingerprint_and_delta ⟨fun _ => none⟩ 5 "srv" "mcp-get"
      [("display_name", JValue.str "X")]).2.1 = none ∧
    (update_fingerprint_and_delta ⟨fun _ => none⟩ 5 "srv" "mcp-get"
      [("display_name", JValue.str "X")]).2.2.manifests "srv" =
      some [("display_name", JValue.str "X")] ∧
    diff_keys none [("display_name", JValue.str "X")] = CORE_KEYS_FOR_FINGERPRINT :=
  first_sighting_persists_without_delta ⟨fun _ => none⟩ 5 "srv" "mcp-get"
    [("display_name", JValue.str "X")] rfl

/-- C5: a persisted prior A and a new manifest B that agree on every
tracked key except "license" produce a Delta whose `changed_keys` is
exactly `["license"]` and whose `old_sha` is the (non-null) hash of A. -/
theorem license_only_change_emits_license_delta (st : StoreState) (now : Nat)
    (sid reg : String) (A B : Manifest)
    (hprev : read_manifest st sid = some A)
    (hsame : ∀ k ∈ CORE_KEYS_FOR_FINGERPRINT, k ≠ "license" → pyGet A k = pyGet B k)
    (hdiff : pyGet A "license" ≠ pyGet B "license") :
    (update_fingerprint_and_delta st now sid reg B).2.1 =
      some { timestamp := now, server_id := sid, registry := reg,
             old_sha := some (compute_sha256_for_manifest A),
             new_sha := compute_sha256_for_manifest B,
             changed_keys := ["license"] } := by
  have hs : sortedCoreKeys =
      ["auth_required", "description", "display_name", "env_vars", "homepage",
       "install", "license", "maintainer", "runtime", "source_repo", "tags",
       "tools", "transports"] := by decide
  have e1 : pyGet A "auth_required" = pyGet B "auth_required" :=
    hsame _ (by decide) (by decide)
  have e2 : pyGet A "description" = pyGet B "description" :=
    hsame _ (by decide) (by decide)
  have e3 : pyGet A "display_name" = pyGet B "display_name" :=
    hsame _ (by decide) (by decide)
  have e4 : pyGet A "env_vars" = pyGet B "env_vars" :=
    hsame _ (by decide) (by decide)
  have e5 : pyGet A "homepage" = pyGet B "homepage" :=
    hsame _ (by decide) (by decide)
  have e6 : pyGet A "install" = pyGet B "install" :=
    hsame _ (by decide) (by decide)
  have e7 : pyGet A "maintainer" = pyGet B "maintainer" :=
    hsame _ (by decide) (by decide)
  have e8 : pyGet A "runtime" = pyGet B "runtime" :=
    hsame _ (by decide) (by decide)
  have e9 : pyGet A "source_repo" = pyGet B "source_repo" :=
    hsame _ (by decide) (by decide)
  have e10 : pyGet A "tags" = pyGet B "tags" :=
    hsame _ (by decide) (by decide)
  have e11 : pyGet A "tools" = pyGet B "tools" :=
    hsame _ (by decide) (by decide)
  have e12 : pyGet A "transports" = pyGet B "transports" :=
    hsame _ (by decide) (by decide)
  have hne : compute_sha256_for_manifest A ≠ compute_sha256_for_manifest B := by
    intro hcontra
    exact hdiff (by
      have := eq_on_of_map_eq (l := sortedCoreKeys)
        (f := fun k => (k, pyGet A k)) (g := fun k => (k, pyGet B k))
        hcontra "license" (by decide)
      exact congrArg Prod.snd this)
  have hkeys : diff_keys (some A) B = ["license"] := by
    unfold diff_keys
    rw [hs]
    simp [List.filter_cons, e1, e2, e3, e4, e5, e6, e7, e8, e9, e10, e11, e12, hdiff]
  simp [update_fingerprint_and_delta, hprev, hne, hkeys]

/-- Witness for C5 at the concrete manifests of the repository's
fingerprint test, with only `license` changed. -/
theorem license_only_change_emits_license_delta_witness :
    (update_fingerprint_and_delta
      ⟨fun s => if s = "srv" then
        some [("display_name", JValue.str "X"), ("license", JValue.str "MIT"),
              ("runtime", JValue.str "python")] else none⟩
      9 "srv" "mcp-get"
      [("display_name", JValue.str "X"), ("license", JValue.str "Apache-2.0"),
       ("runtime", JValue.str "python")]).2.1 =
      some { timestamp := 9, server_id := "srv", registry := "mcp-get",
             old_sha := some (compute_sha256_for_manifest
               [("display_name", JValue.str "X"), ("license", JValue.str "MIT"),
                ("runtime", JValue.str "python")]),
             new_sha := compute_sha256_for_manifest
               [("display_name", JValue.str "X"), ("license", JValue.str "Apache-2.0"),
                ("runtime", JValue.str "python")],
             changed_keys := ["license"] } :=
  license_only_change_emits_license_delta _ 9 "srv" "mcp-get" _ _ rfl
    (by decide) (by decide)

/-- If the store already holds exactly the submitted manifest, the
update emits no Delta. -/
theorem update_no_delta_of_stored (st1 : StoreState) (n : Nat) (sid reg : String)
    (B : Manifest) (h : st1.manifests sid = some B) :
    (update_fingerprint_and_delta st1 n sid reg B).2.1 = none := by
  simp [update_fingerprint_and_delta, read_manifest, h]

/-- If the stored manifest hashes like the submitted one, the update
emits no Delta. -/
theorem update_no_delta_of_hash_eq (st1 : StoreState) (n : Nat) (sid reg : String)
    (P B : Manifest) (h : st1.manifests sid = some P)
    (hh : compute_sha256_for_manifest P = compute_sha256_for_manifest B) :
    (update_fingerprint_and_delta st1 n sid reg B).2.1 = none := by
  simp [update_fingerprint_and_delta, read_manifest, h, hh]

/-- C9: an update whose manifest hashes identically to the persisted one
returns no Delta and leaves the store untouched; in particular the
second of two identical submissions never yields a Delta. -/
theorem unchanged_hash_no_write_no_delta (st : StoreState) (now : Nat)
    (sid reg : String) (A B : Manifest)
    (hprev : read_manifest st sid = some A)
    (hhash : compute_sha256_for_manifest A = compute_sha256_for_manifest B) :
    (update_fingerprint_and_delta st now sid reg B).2.1 = none ∧
    (update_fingerprint_and_delta st now sid reg B).2.2 = st ∧
    ∀ (st0 : StoreState) (n1 n2 : Nat),
      (update_fingerprint_and_delta
        (update_fingerprint_and_delta st0 n1 sid reg B).2.2 n2 sid reg B).2.1 = none := by
  refine ⟨?_, ?_, ?_⟩
  · simp [update_fingerprint_and_delta, hprev, hhash]
  · simp [update_fingerprint_and_delta, hprev, hhash]
  · intro st0 n1 n2
    cases h0 : st0.manifests sid with
    | none =>
      apply update_no_delta_of_stored
      simp [update_fingerprint_and_delta, read_manifest, h0, write_manifest]
    | some P =>
      by_cases hP : compute_sha256_for_manifest P = compute_sha256_for_manifest B
      · have h1 : (update_fingerprint_and_delta st0 n1 sid reg B).2.2 = st0 := by
          simp [update_fingerprint_and_delta, read_manifest, h0, hP]
        rw [h1]
        exact update_no_delta_of_hash_eq st0 n2 sid reg P B h0 hP
      · apply update_no_delta_of_stored
        simp [update_fingerprint_and_delta, read_manifest, h0, hP, write_manifest]

/-- Witness for C9: resubmitting the same one-field manifest. -/
theorem unchanged_hash_no_write_no_delta_witness :
    (update_fingerprint_and_delta
      ⟨fun s => if s = "srv" then some [("display_name", JValue.str "X")] else none⟩
      4 "srv" "mcp-get" [("display_name", JValue.str "X")]).2.1 = none ∧
    (update_fingerprint_and_delta
      ⟨fun s => if s = "srv" then some [("display_name", JValue.str "X")] else none⟩
      4 "srv" "mcp-get" [("display_name", JValue.str "X")]).2.2 =
      ⟨fun s => if s = "srv" then some [("display_name", JValue.str "X")] else none⟩ ∧
    ∀ (st0 : StoreState) (n1 n2 : Nat),
      (update_fingerprint_and_delta
        (update_fingerprint_and_delta st0 n1 "srv" "mcp-get"
          [("display_name", JValue.str "X")]).2.2 n2 "srv" "mcp-get"
        [("display_name", JValue.str "X")]).2.1 = none :=
  unchanged_hash_no_write_no_delta _ 4 "srv" "mcp-get" _ _ rfl rfl

/-! ## Claims about the identity merge -/

/-- Merging into a stored candidate never changes its identity fields,
hence never its key. -/
theorem key_mergeInto (b c : ServerCandidate) : key (mergeInto b c) = key b := rfl

/-- The invariant of the `by_key` map: keys are distinct and each entry
is stored under its candidate's key. -/
def MergedInv (m : List (String × ServerCandidate)) : Prop :=
  (m.map Prod.fst).Nodup ∧ ∀ p ∈ m, key p.2 = p.1

theorem mergedInv_nil : MergedInv [] := ⟨List.nodup_nil, by simp⟩

theorem mergeStep_preserves_inv {m : List (String × ServerCandidate)}
    (hm : MergedInv m) (c : ServerCandidate) : MergedInv (mergeStep m c) := by
  cases hl : m.lookup (key c) with
  | some v =>
    have hfst : (mergeStep m c).map Prod.fst = m.map Prod.fst := by
      simp only [mergeStep, hl, Option.isSome_some, if_true]
      rw [List.map_map]
      exact map_eq_of_eq_on (fun p _ => by by_cases hc : p.1 = key c <;> simp [hc])
    refine ⟨hfst ▸ hm.1, fun q hq => ?_⟩
    simp only [mergeStep, hl, Option.isSome_some, if_true, List.mem_map] at hq
    obtain ⟨p, hp, rfl⟩ := hq
    by_cases hc : p.1 = key c
    · simp [hc, key_mergeInto, hm.2 p hp]
    · simp [hc, hm.2 p hp]
  | none =>
    have hstep : mergeStep m c = m ++ [(key c, c)] := by
      simp [mergeStep, hl]
    have hfresh : key c ∉ m.map Prod.fst :=
      (lookup_eq_none_iff_not_key m (key c)).mp hl
    rw [hstep]
    constructor
    · rw [List.map_append]
      refine List.Nodup.append hm.1 (List.nodup_singleton _) ?_
      intro a ha hb
      simp only [List.map_cons, List.map_nil, List.mem_singleton] at hb
      exact hfresh (hb ▸ ha)
    · intro q hq
      rcases List.mem_append.mp hq with hq | hq
      · exact hm.2 q hq
      · rw [List.mem_singleton.mp hq]

theorem foldl_mergeStep_preserves_inv (l : List ServerCandidate) :
    ∀ m, MergedInv m → MergedInv (l.foldl mergeStep m) := by
  induction l with
  | nil => exact fun m hm => hm
  | cons c t ih => exact fun m hm => ih _ (mergeStep_preserves_inv hm c)

/-- Folding candidates whose keys are pairwise distinct and absent from
the map just appends them unchanged. -/
theorem foldl_mergeStep_of_fresh (l : List ServerCandidate) :
    ∀ m : List (String × ServerCandidate),
      (∀ c ∈ l, m.lookup (key c) = none) →
      (l.map key).Nodup →
      l.foldl mergeStep m = m ++ l.map (fun c => (key c, c)) := by
  induction l with
  | nil => simp
  | cons c t ih =>
    intro m hfresh hnd
    have hstep : mergeStep m c = m ++ [(key c, c)] := by
      simp [mergeStep, hfresh c (List.mem_cons_self c t)]
    simp only [List.foldl_cons, hstep]
    simp only [List.map_cons, List.nodup_cons] at hnd
    rw [ih (m ++ [(key c, c)]) ?_ hnd.2]
    · simp
    · intro d hd
      rw [lookup_eq_none_iff_not_key]
      simp only [List.map_append, List.mem_append]
      rintro (hk | hk)
      · exact (lookup_eq_none_iff_not_key m (key d)).mp
          (hfresh d (List.mem_cons_of_mem c hd)) hk
      · simp at hk
        exact hnd.1 (hk ▸ List.mem_map_of_mem key hd)

/-- The keys of the merged output are pairwise distinct. -/
theorem merge_candidates_keys_nodup (X : List ServerCandidate) :
    ((merge_candidates X).map key).Nodup := by
  have hinv := foldl_mergeStep_preserves_inv X [] mergedInv_nil
  have hkeys : (merge_candidates X).map key = (X.foldl mergeStep []).map Prod.fst := by
    unfold merge_candidates
    rw [List.map_map]
    exact map_eq_of_eq_on (fun p hp => hinv.2 p hp)
  exact hkeys ▸ hinv.1

/-- C6: `merge_candidates` is idempotent — in fact re-merging an already
merged list returns it unchanged (exact list equality, which subsumes the
order-insensitive equality of the claim). -/
theorem merge_candidates_idempotent (X : List ServerCandidate) :
    merge_candidates (merge_candidates X) = merge_candidates X := by
  have hnd := merge_candidates_keys_nodup X
  show ((merge_candidates X).foldl mergeStep []).map Prod.snd = merge_candidates X
  rw [foldl_mergeStep_of_fresh (merge_candidates X) [] (fun c _ => rfl) hnd]
  rw [List.nil_append, List.map_map]
  rw [map_eq_of_eq_on (f := Prod.snd ∘ fun c => (key c, c)) (g := id)
    (fun c _ => rfl), List.map_id]

/-! ## End-to-end normalize + merge (C1) -/

/-- A candidate with a truthy repo URL is keyed by that URL, stripped
and lowercased. -/
theorem key_of_repo (c : ServerCandidate) (h : truthyS c.repo_url = true) :
    key c = pyLower (pyStrip (c.repo_url.getD "")) := by
  unfold key
  rw [show strOr c.repo_url (strOr c.homepage (some c.name)) = c.repo_url from by
    simp [strOr, h]]

/-- The normalizer carries `repo_url or url` into the candidate. -/
theorem normalize_repo_url (daysSince : JValue → Option Int) (raw : RawHit) :
    (normalize_candidate daysSince raw).repo_url = strOr raw.repo_url raw.url := rfl

/-- C1 (amended): three raw hits resolving to the same repository URL up
to letter case (and surrounding whitespace) normalize and merge into
exactly one candidate, whose provenance is the concatenation of the
three hits' provenance lists — of length 3 exactly when each raw hit
carries one provenance entry, and empty for adapter-built hit dicts,
which carry no provenance field.  A trailing-slash difference is not
collapsed by the merge key (see the counterexample). -/
theorem same_repo_case_insensitive_hits_merge_to_one
    (daysSince : JValue → Option Int) (r1 r2 r3 : RawHit)
    (h1 : truthyS (strOr r1.repo_url r1.url) = true)
    (h2 : truthyS (strOr r2.repo_url r2.url) = true)
    (h3 : truthyS (strOr r3.repo_url r3.url) = true)
    (e12 : pyLower (pyStrip ((strOr r2.repo_url r2.url).getD "")) =
           pyLower (pyStrip ((strOr r1.repo_url r1.url).getD "")))
    (e13 : pyLower (pyStrip ((strOr r3.repo_url r3.url).getD "")) =
           pyLower (pyStrip ((strOr r1.repo_url r1.url).getD ""))) :
    merge_candidates
        [normalize_candidate daysSince r1, normalize_candidate daysSince r2,
         normalize_candidate daysSince r3] =
      [mergeInto (mergeInto (normalize_candidate daysSince r1)
        (normalize_candidate daysSince r2)) (normalize_candidate daysSince r3)] ∧
    (mergeInto (mergeInto (normalize_candidate daysSince r1)
        (normalize_candidate daysSince r2))
        (normalize_candidate daysSince r3)).provenance
      = r1.provenance ++ r2.provenance ++ r3.provenance := by
  have k1 : key (normalize_candidate daysSince r1) =
      pyLower (pyStrip ((strOr r1.repo_url r1.url).getD "")) := by
    rw [key_of_repo _ (by rw [normalize_repo_url]; exact h1), normalize_repo_url]
  have k2 : key (normalize_candidate daysSince r2) =
      key (normalize_candidate daysSince r1) := by
    rw [key_of_repo _ (by rw [normalize_repo_url]; exact h2), normalize_repo_url,
      k1, e12]
  have k3 : key (normalize_candidate daysSince r3) =
      key (normalize_candidate daysSince r1) := by
    rw [key_of_repo _ (by rw [normalize_repo_url]; exact h3), normalize_repo_url,
      k1, e13]
  refine ⟨?_, ?_⟩
  · simp [merge_candidates, mergeStep, List.lookup, k2, k3]
  · show ((normalize_candidate daysSince r1).provenance
        ++ (normalize_candidate daysSince r2).provenance)
        ++ (normalize_candidate daysSince r3).provenance = _
    simp [normalize_candidate]

/-- Witness for the amended C1: three case-variant GitHub hits, each
carrying one provenance entry, collapse to one candidate whose
provenance has length 3. -/
theorem same_repo_case_insensitive_hits_merge_to_one_witness :
    merge_candidates
        [normalize_candidate (fun _ => none)
          { url := some "https://github.com/Acme/Server",
            provenance := [{ source := "github",
                             url := "https://github.com/Acme/Server" }] },
         normalize_candidate (fun _ => none)
          { url := some "https://GitHub.com/acme/server",
            provenance := [{ source := "npm",
                             url := "https://GitHub.com/acme/server" }] },
         normalize_candidate (fun _ => none)
          { url := some "https://github.com/ACME/SERVER",
            provenance := [{ source := "pypi",
                             url := "https://github.com/ACME/SERVER" }] }] =
      [mergeInto (mergeInto
        (normalize_candidate (fun _ => none)
          { url := some "https://github.com/Acme/Server",
            provenance := [{ source := "github",
                             url := "https://github.com/Acme/Server" }] })
        (normalize_candidate (fun _ => none)
          { url := some "https://GitHub.com/acme/server",
            provenance := [{ source := "npm",
                             url := "https://GitHub.com/acme/server" }] }))
        (normalize_candidate (fun _ => none)
          { url := some "https://github.com/ACME/SERVER",
            provenance := [{ source := "pypi",
                             url := "https://github.com/ACME/SERVER" }] })] ∧
    (mergeInto (mergeInto
        (normalize_candidate (fun _ => none)
          { url := some "https://github.com/Acme/Server",
            provenance := [{ source := "github",
                             url := "https://github.com/Acme/Server" }] })
        (normalize_candidate (fun _ => none)
          { url := some "https://GitHub.com/acme/server",
            provenance := [{ source := "npm",
                             url := "https://GitHub.com/acme/server" }] }))
        (normalize_candidate (fun _ => none)
          { url := some "https://github.com/ACME/SERVER",
            provenance := [{ source := "pypi",
                             url := "https://github.com/ACME/SERVER" }] })).provenance
      = [{ source := "github", url := "https://github.com/Acme/Server" }]
        ++ [{ source := "npm", url := "https://GitHub.com/acme/server" }]
        ++ [{ source := "pypi", url := "https://github.com/ACME/SERVER" }] :=
  same_repo_case_insensitive_hits_merge_to_one (fun _ => none) _ _ _
    (by decide) (by decide) (by decide) (by decide) (by decide)

/-- C1 counterexample: with a trailing-slash variant among the three
same-repository hits, the pipeline produces two candidates, not one (the
merge key is not slash-normalized); moreover adapter hit dicts carry no
provenance field, so no merged candidate's provenance has length 3. -/
theorem same_repo_hits_counterexample :
    ¬ ((merge_candidates
        [normalize_candidate (fun _ => none)
           { url := some "https://github.com/Acme/Server" },
         normalize_candidate (fun _ => none)
           { url := some "https://github.com/acme/server" },
         normalize_candidate (fun _ => none)
           { url := some "https://github.com/acme/server/" }]).length = 1 ∧
      ∀ c ∈ merge_candidates
        [normalize_candidate (fun _ => none)
           { url := some "https://github.com/Acme/Server" },
         normalize_candidate (fun _ => none)
           { url := some "https://github.com/acme/server" },
         normalize_candidate (fun _ => none)
           { url := some "https://github.com/acme/server/" }],
        c.provenance.length = 3) := by
  decide

/-! ## Claims about the normalizer's id (C4) -/

/-- The identity string `normalize_candidate` hashes:
`(repo or homepage or name or "unknown")` with
`repo = raw.get("repo_url") or raw.get("url")` and
`name = raw.get("title") or raw.get("name") or raw.get("repo_name") or ""`. -/
def identity_string (raw : RawHit) : String :=
  let name := (strOr raw.title (strOr raw.name raw.repo_name)).getD ""
  let repo := strOr raw.repo_url raw.url
  if truthyS repo then repo.getD ""
  else if truthyS raw.homepage then raw.homepage.getD ""
  else if name ≠ "" then name
  else "unknown"

/-- C4 counterexample: a raw hit carrying its own truthy `id` keeps that
id verbatim, so the candidate id is not the hash of the identity string
(the explicit id is not even of the digest's 16-hex-character shape). -/
theorem normalize_id_counterexample :
    ¬ ((normalize_candidate (fun _ => none)
        { id := some "explicit-id", url := some "https://github.com/x/y" }).id
      = stable_id "https://github.com/x/y") := by
  decide

/-- C4 (amended): for every raw hit without a truthy `id` field, the
candidate id is the deterministic truncated digest of the stripped,
lowercased identity string (repo_url, else url, else homepage, else
name, else the literal "unknown"); consequently any two normalizations
whose identity strings agree up to case and surrounding whitespace
yield the same id. -/
theorem normalize_id_from_identity_hash (daysSince : JValue → Option Int)
    (raw : RawHit) (h : truthyS raw.id = false) :
    (normalize_candidate daysSince raw).id = stable_id (identity_string raw) ∧
    ∀ (daysSince2 : JValue → Option Int) (raw2 : RawHit),
      truthyS raw2.id = false →
      pyLower (pyStrip (identity_string raw2)) =
        pyLower (pyStrip (identity_string raw)) →
      (normalize_candidate daysSince2 raw2).id =
        (normalize_candidate daysSince raw).id := by
  have hid : ∀ (f : JValue → Option Int) (r : RawHit), truthyS r.id = false →
      (normalize_candidate f r).id = stable_id (identity_string r) := by
    intro f r hr
    simp [normalize_candidate, identity_string, hr]
  refine ⟨hid daysSince raw h, fun f2 r2 h2 heq => ?_⟩
  rw [hid f2 r2 h2, hid daysSince raw h]
  simp [stable_id, heq]

/-- Witness for the amended C4: a whitespace/case variant of the same
repository URL yields the same candidate id. -/
theorem normalize_id_from_identity_hash_witness :
    (normalize_candidate (fun _ => none)
      { repo_url := some " HTTPS://GitHub.com/Acme/Tool " }).id =
      stable_id (identity_string { repo_url := some " HTTPS://GitHub.com/Acme/Tool " }) ∧
    (normalize_candidate (fun _ => some 3)
      { url := some "https://github.com/acme/tool" }).id =
      (normalize_candidate (fun _ => none)
        { repo_url := some " HTTPS://GitHub.com/Acme/Tool " }).id :=
  ⟨(normalize_id_from_identity_hash (fun _ => none)
      { repo_url := some " HTTPS://GitHub.com/Acme/Tool " } (by decide)).1,
   (normalize_id_from_identity_hash (fun _ => none)
      { repo_url := some " HTTPS://GitHub.com/Acme/Tool " } (by decide)).2
     (fun _ => some 3) { url := some "https://github.com/acme/tool" }
     (by decide) (by decide)⟩

/-! ## Claims about the scorer (C8) -/

theorem lookup_append_of_none {β : Type} {l1 : List (String × β)}
    (l2 : List (String × β)) {k : String} (h : l1.lookup k = none) :
    (l1 ++ l2).lookup k = l2.lookup k := by
  induction l1 with
  | nil => simp
  | cons p t ih =>
    obtain ⟨a, b⟩ := p
    by_cases hk : k = a
    · subst hk
      simp [List.lookup] at h
    · have hba : (k == a) = false := beq_eq_false_iff_ne.mpr hk
      simp only [List.lookup, hba] at h
      simp only [List.cons_append, List.lookup, hba]
      exact ih h

theorem lookup_append_of_some {β : Type} {l1 : List (String × β)}
    (l2 : List (String × β)) {k : String} {v : β} (h : l1.lookup k = some v) :
    (l1 ++ l2).lookup k = some v := by
  induction l1 with
  | nil => simp [List.lookup] at h
  | cons p t ih =>
    obtain ⟨a, b⟩ := p
    by_cases hk : k = a
    · subst hk
      simp only [List.lookup, beq_self_eq_true] at h
      simp [List.lookup, h]
    · have hba : (k == a) = false := beq_eq_false_iff_ne.mpr hk
      simp only [List.lookup, hba] at h
      simp only [List.cons_append, List.lookup, hba]
      exact ih h

theorem lookup_map_overwrite_self {β : Type} (d : List (String × β))
    (k : String) (v : β) (h : (d.lookup k).isSome) :
    (d.map (fun p => if p.1 = k then (k, v) else p)).lookup k = some v := by
  induction d with
  | nil => simp [List.lookup] at h
  | cons p t ih =>
    obtain ⟨a, b⟩ := p
    rw [List.map_cons]
    by_cases hk : a = k
    · subst hk
      rw [show (if (a, b).1 = a then (a, v) else (a, b)) = (a, v) from by simp]
      simp [List.lookup]
    · rw [show (if (a, b).1 = k then (k, v) else (a, b)) = (a, b) from by simp [hk]]
      have hba : (k == a) = false :=
        beq_eq_false_iff_ne.mpr (fun he => hk he.symm)
      simp only [List.lookup, hba] at h ⊢
      exact ih h

theorem lookup_map_overwrite_ne {β : Type} (d : List (String × β))
    (k k' : String) (v : β) (hne : k' ≠ k) :
    (d.map (fun p => if p.1 = k then (k, v) else p)).lookup k' = d.lookup k' := by
  induction d with
  | nil => simp
  | cons p t ih =>
    obtain ⟨a, b⟩ := p
    rw [List.map_cons]
    by_cases hk : a = k
    · subst hk
      rw [show (if (a, b).1 = a then (a, v) else (a, b)) = (a, v) from by simp]
      have hba : (k' == a) = false := beq_eq_false_iff_ne.mpr hne
      simp only [List.lookup, hba]
      exact ih
    · rw [show (if (a, b).1 = k then (k, v) else (a, b)) = (a, b) from by simp [hk]]
      simp only [List.lookup]
      cases k' == a <;> simp [ih]

/-- Overwriting one dict key: reading it back gives the new value. -/
theorem pyGet_dictInsert_self (d : Dict) (k : String) (v : JValue) :
    pyGet (dictInsert d k v) k = v := by
  unfold dictInsert pyGet
  by_cases h : (d.lookup k).isSome
  · rw [if_pos h, lookup_map_overwrite_self d k v h]
    rfl
  · rw [if_neg h]
    have hnone : d.lookup k = none := by
      cases hl : d.lookup k with
      | none => rfl
      | some w => rw [hl] at h; simp at h
    rw [lookup_append_of_none _ hnone]
    simp [List.lookup]

/-- Overwriting one dict key leaves every other key's value unchanged. -/
theorem pyGet_dictInsert_ne (d : Dict) (k k' : String) (v : JValue)
    (hne : k' ≠ k) : pyGet (dictInsert d k v) k' = pyGet d k' := by
  unfold dictInsert pyGet
  by_cases h : (d.lookup k).isSome
  · rw [if_pos h, lookup_map_overwrite_ne d k k' v hne]
  · rw [if_neg h]
    cases hl : d.lookup k' with
    | some w =>
      rw [lookup_append_of_some _ hl]
    | none =>
      rw [lookup_append_of_none _ hl]
      have hba : (k' == k) = false := beq_eq_false_iff_ne.mpr hne
      simp [List.lookup, hba, hl]

/-- All score summands other than the stars bonus and the archived
penalty, for factoring the monotonicity proofs. -/
noncomputable def score_rest (sem lex : ℝ) (c : ServerCandidate) : ℝ :=
  40 * sem + 22 * lex
  + 14 * (1 / (1 + Real.log (1 + max 0 (signalNum c.signals "days_since_push" 9999))))
  + 10 * min 1 ((c.registries.length : ℝ) / 3)
  + 6 * (if c.sdk = "typescript" ∨ c.sdk = "python" then (1:ℝ) else 0)
  + 4 * (if c.auth.length ≤ 10 then (1:ℝ) else 0.7)
  + (if c.transports ≠ [] then
      (if "stdio" ∈ c.transports then (1.5:ℝ) else 0)
      + (if "sse" ∈ c.transports then 1 else 0)
     else 0)
  + (if pyGet c.signals "license" ≠ JValue.null
        ∧ pyGet c.signals "license" ≠ JValue.str "NOASSERTION" then (1:ℝ) else 0)
  - (if c.risk_flags ≠ [] then (8:ℝ) else 0)

theorem candidate_score_decomp (sem lex : ℝ) (c : ServerCandidate) :
    candidate_score sem lex c = round2 (score_rest sem lex c
      + min 4 (Real.log (1 + signalNum c.signals "stars" 0))
      - (if jTruthy (pyGet c.signals "archived") then 12 else 0)) := by
  simp only [candidate_score, score_rest]
  congr 1
  ring

theorem round2_mono {x y : ℝ} (h : x ≤ y) : round2 x ≤ round2 y := by
  unfold round2
  have hr : round (100 * x) ≤ round (100 * y) := by
    rw [round_eq, round_eq]
    exact Int.floor_mono (by linarith)
  have : ((round (100 * x) : ℤ) : ℝ) ≤ ((round (100 * y) : ℤ) : ℝ) :=
    Int.cast_le.mpr hr
  linarith

theorem round2_sub_twelve (x : ℝ) : round2 (x - 12) = round2 x - 12 := by
  unfold round2
  have h1 : (100:ℝ) * (x - 12) = 100 * x - ((1200:ℤ) : ℝ) := by
    push_cast
    ring
  rw [h1, round_sub_int]
  push_cast
  ring

theorem score_rest_setSignal (sem lex : ℝ) (c : ServerCandidate) (k : String)
    (v : JValue) (hk1 : ("days_since_push" : String) ≠ k)
    (hk2 : ("license" : String) ≠ k) :
    score_rest sem lex (setSignal c k v) = score_rest sem lex c := by
  simp only [score_rest, setSignal, signalNum,
    pyGet_dictInsert_ne _ _ _ _ hk1, pyGet_dictInsert_ne _ _ _ _ hk2]

/-- C8: holding the query, the text-similarity inputs and every other
signal and field fixed, a larger stars signal never lowers the composite
score, and turning on the archived signal lowers the score by exactly
the fixed 12-point penalty — in particular strictly. -/
theorem score_monotone_in_stars_and_archived_penalty
    (sem lex : ℝ) (c : ServerCandidate) (s1 s2 : Int)
    (h0 : 0 ≤ s1) (h12 : s1 ≤ s2) :
    candidate_score sem lex (setSignal c "stars" (JValue.num s1)) ≤
      candidate_score sem lex (setSignal c "stars" (JValue.num s2)) ∧
    (jTruthy (pyGet c.signals "archived") = false →
      candidate_score sem lex (setSignal c "archived" (JValue.bool true)) =
        candidate_score sem lex c - 12 ∧
      candidate_score sem lex (setSignal c "archived" (JValue.bool true)) <
        candidate_score sem lex c) := by
  have hstars : ∀ s : Int,
      signalNum (setSignal c "stars" (JValue.num s)).signals "stars" 0 = (s : ℝ) := by
    intro s
    simp only [setSignal, signalNum, pyGet_dictInsert_self]
    by_cases hs : s = 0 <;> simp [hs]
  have hrest : ∀ s : Int,
      score_rest sem lex (setSignal c "stars" (JValue.num s)) = score_rest sem lex c :=
    fun s => score_rest_setSignal sem lex c _ _ (by decide) (by decide)
  have harch : ∀ s : Int,
      jTruthy (pyGet (setSignal c "stars" (JValue.num s)).signals "archived") =
        jTruthy (pyGet c.signals "archived") := by
    intro s
    simp only [setSignal, pyGet_dictInsert_ne _ _ _ _
      (by decide : ("archived" : String) ≠ "stars")]
  constructor
  · rw [candidate_score_decomp, candidate_score_decomp, hstars, hstars,
      hrest, hrest, harch, harch]
    apply round2_mono
    have hcast1 : (0:ℝ) ≤ (s1 : ℝ) := by exact_mod_cast h0
    have hcast2 : (s1:ℝ) ≤ (s2:ℝ) := by exact_mod_cast h12
    have hlog : min (4:ℝ) (Real.log (1 + (s1:ℝ))) ≤
        min 4 (Real.log (1 + (s2:ℝ))) := by
      refine min_le_min le_rfl ?_
      apply Real.log_le_log (by linarith)
      linarith
    linarith
  · intro hfalse
    have hrest2 : score_rest sem lex (setSignal c "archived" (JValue.bool true)) =
        score_rest sem lex c :=
      score_rest_setSignal sem lex c _ _ (by decide) (by decide)
    have hstars2 :
        signalNum (setSignal c "archived" (JValue.bool true)).signals "stars" 0 =
          signalNum c.signals "stars" 0 := by
      simp only [setSignal, signalNum, pyGet_dictInsert_ne _ _ _ _
        (by decide : ("stars" : String) ≠ "archived")]
    have harch2 :
        jTruthy (pyGet (setSignal c "archived" (JValue.bool true)).signals
          "archived") = true := by
      simp only [setSignal, pyGet_dictInsert_self]
      rfl
    rw [candidate_score_decomp, candidate_score_decomp, hrest2, hstars2]
    simp only [harch2, hfalse, if_true, Bool.false_eq_true, if_false, sub_zero]
    refine ⟨round2_sub_twelve _, ?_⟩
    rw [round2_sub_twelve]
    linarith

/-- Witness for C8 at a concrete candidate, star counts 3 ≤ 5 and zero
similarity inputs. -/
theorem score_monotone_in_stars_and_archived_penalty_witness :
    candidate_score 0 0 (setSignal
      { id := "cand", name := "cand", signals := [("stars", JValue.num 2)] }
      "stars" (JValue.num 3)) ≤
      candidate_score 0 0 (setSignal
        { id := "cand", name := "cand", signals := [("stars", JValue.num 2)] }
        "stars" (JValue.num 5)) ∧
    candidate_score 0 0 (setSignal
      { id := "cand", name := "cand", signals := [("stars", JValue.num 2)] }
      "archived" (JValue.bool true)) =
      candidate_score 0 0
        { id := "cand", name := "cand", signals := [("stars", JValue.num 2)] } - 12 :=
  ⟨(score_monotone_in_stars_and_archived_penalty 0 0
      { id := "cand", name := "cand", signals := [("stars", JValue.num 2)] }
      3 5 (by norm_num) (by norm_num)).1,
   ((score_monotone_in_stars_and_archived_penalty 0 0
      { id := "cand", name := "cand", signals := [("stars", JValue.num 2)] }
      3 5 (by norm_num) (by norm_num)).2 (by decide)).1⟩

/-! ## Claims about adapter error containment (C2) -/

/-- C2 counterexample: when every retried request of the GitHub adapter
ultimately fails, `search` propagates the failure (tenacity's
`RetryError`) instead of returning an empty or partial list, and the
unguarded fan-out of `discover` aborts with it even though every other
source succeeded. -/
theorem adapter_failure_containment_counterexample :
    (¬ ∃ hits : List SourceHit,
      github_search (fun _ _ => Except.error FetchError.timeoutError) 100 =
        Except.ok hits) ∧
    discover_hits
        (github_search (fun _ _ => Except.error FetchError.timeoutError) 100)
        [] (Except.ok []) (Except.ok []) (Except.ok []) =
      Except.error FetchError.retryError := by
  constructor
  · rintro ⟨hits, h⟩
    rw [show github_search (fun _ _ => Except.error FetchError.timeoutError) 100 =
        Except.error FetchError.retryError from rfl] at h
    exact Except.noConfusion h
  · rfl

/-- C2 (amended): only the registries adapter contains persistent
failures (its pages are fetched with `return_exceptions=True` and failed
pages are skipped, so it returns an empty list when everything fails);
the github, npm, pypi and dockerhub adapters let a persistently failing
primary request escape `search` as tenacity's `RetryError` — npm's
handler catches only `httpx.HTTPStatusError`, which the retry decorator
never re-raises — and `discover` does not guard the adapter calls, so a
single such failure aborts the whole fan-out. -/
theorem adapter_failure_propagation (limit : Nat)
    {α β γ : Type} (extract : String → List SourceHit)
    (pageErr : String → FetchError)
    (ghErr : Nat → Nat → FetchError) (npmErr : Bool → Nat → FetchError)
    (pypiErr : Nat → FetchError) (dockerErr : Nat → FetchError)
    (processNpm : α → List SourceHit) (processDocker : β → List SourceHit)
    (parseNames : String → List String)
    (getProjectJson : String → Nat → Except FetchError γ)
    (hitOf : String → γ → Option SourceHit) :
    registries_search extract (fun u => Except.error (pageErr u)) limit = [] ∧
    github_search (fun p i => Except.error (ghErr p i)) limit =
      Except.error FetchError.retryError ∧
    npm_search processNpm (fun q i => Except.error (npmErr q i)) =
      Except.error FetchError.retryError ∧
    pypi_search parseNames (fun i => Except.error (pypiErr i))
      getProjectJson hitOf limit = Except.error FetchError.retryError ∧
    dockerhub_search processDocker (fun i => Except.error (dockerErr i)) limit =
      Except.error FetchError.retryError ∧
    ∀ (reg : List SourceHit) (np pp dh : Except FetchError (List SourceHit)),
      discover_hits (github_search (fun p i => Except.error (ghErr p i)) limit)
        reg np pp dh = Except.error FetchError.retryError := by
  refine ⟨?_, rfl, rfl, rfl, rfl, fun reg np pp dh => rfl⟩
  simp [registries_search]

end MCPGuardian
